import Mathlib

/-!
Shallow embedding of `util/_metadata/recording.py` from viral-ngs: the
metadata-recording interceptor that wraps one command invocation, derives
run/step identifiers, normalizes FileArg argument values, captures the
command outcome, and persists a step record through the metadata store
when tracking is enabled and the invocation is outermost.

Helpers of the repository that are not under `src/` (FileArg,
`util.file.string_to_file_name`, `errors_as_warnings`, `tmp_set_env`,
`metadata_db`) are modelled from the spec where their behaviour matters;
each such definition carries a doc comment saying so.
-/

set_option autoImplicit false

namespace ViralNGS

/-- Direction of a file argument: the file(s) are read (IN) or written (OUT)
by the command. -/
inductive FileMode where
  | IN
  | OUT
deriving DecidableEq, Repr

/-- Modelled from the spec: `FileArg` (module `util._metadata.file_arg`, not
under `src/`) wraps one raw argument value denoting file(s), tagged with its
direction, and carries the resolver result: the ordered sequence of candidate
file names computed from the raw value. -/
structure FileArg where
  val : String
  mode : FileMode
  fnames : List String
deriving DecidableEq, Repr

/-- Argument values held in the parsed-argument namespace: a plain (string)
value, a `FileArg` wrapper, or an ordered container (Python list or tuple)
of such values. -/
inductive Val where
  | str : String → Val
  | file : FileArg → Val
  | list : List Val → Val
  | tuple : List Val → Val

mutual

/-- Inner worker of `replace_file_args` (recording.py line 134): a FileArg is
replaced by its raw underlying value; a list or tuple is rebuilt as a list
with the worker mapped over it; anything else is returned unchanged. -/
def replaceFileArgsVal : Val → Val
  | .file f => .str f.val
  | .list vs => .list (replaceFileArgsValList vs)
  | .tuple vs => .list (replaceFileArgsValList vs)
  | .str s => .str s

/-- List worker for `replaceFileArgsVal`, the `list(map(_replace_file_args, val))`
of recording.py line 136. -/
def replaceFileArgsValList : List Val → List Val
  | [] => []
  | v :: vs => replaceFileArgsVal v :: replaceFileArgsValList vs

end

/-- The argument namespace: attribute names paired with their values. -/
def Args : Type := List (String × Val)

/-- `replace_file_args` (recording.py lines 130-140): every attribute of the
argument namespace has the FileArg-replacement worker applied to its value. -/
def replace_file_args (args : Args) : Args :=
  args.map (fun p => (p.1, replaceFileArgsVal p.2))

mutual

/-- Does a value contain a FileArg anywhere inside (looking through ordered
containers)? -/
def hasFileArg : Val → Bool
  | .file _ => true
  | .list vs => hasFileArgList vs
  | .tuple vs => hasFileArgList vs
  | .str _ => false

/-- List worker for `hasFileArg`. -/
def hasFileArgList : List Val → Bool
  | [] => false
  | v :: vs => hasFileArg v || hasFileArgList vs

end

mutual

theorem replaceFileArgsVal_no_fileArg : (v : Val) → hasFileArg (replaceFileArgsVal v) = false
  | .str _ => rfl
  | .file _ => rfl
  | .list vs => replaceFileArgsValList_no_fileArg vs
  | .tuple vs => replaceFileArgsValList_no_fileArg vs

theorem replaceFileArgsValList_no_fileArg : (vs : List Val) → hasFileArgList (replaceFileArgsValList vs) = false
  | [] => rfl
  | v :: vs => by
    simp only [replaceFileArgsValList, hasFileArgList,
      replaceFileArgsVal_no_fileArg v, replaceFileArgsValList_no_fileArg vs,
      Bool.or_self]

end

/-- C5: after `replace_file_args`, no FileArg instance remains anywhere in
the argument values (recursively inside lists and tuples): every attribute
value of the normalized namespace is FileArg-free. -/
theorem replace_file_args_removes_all_fileArgs (args : Args) :
    (replace_file_args args).all (fun p => !hasFileArg p.2) = true := by
  induction args with
  | nil => rfl
  | cons p rest ih =>
    simp only [replace_file_args, List.map_cons, List.all_cons,
      replaceFileArgsVal_no_fileArg p.2, Bool.not_false, Bool.true_and] at ih ⊢
    exact ih

/-- Characters of the filesystem-safe set the run id is transliterated into:
letters, digits, hyphen, underscore, and dot. -/
def isFileSafeChar (c : Char) : Bool :=
  c.isAlphanum || c = '-' || c = '_' || c = '.'

/-- Modelled from the spec: `util.file.string_to_file_name` is not under
`src/`; per the spec the id text is transliterated to a filesystem-safe
character set, modelled here as replacing every character outside the safe
set with a hyphen. -/
def string_to_file_name (s : List Char) : List Char :=
  s.map (fun c => if isFileSafeChar c then c else '-')

/-- The per-invocation components joined into a run id (recording.py lines
47-50): the truncated local timestamp, the invoking user name, the base name
of the current working directory, and a fresh UUID, each as text. -/
structure RunIdParts where
  timestamp : List Char
  user : List Char
  cwdBase : List Char
  uuid : List Char

/-- The double-underscore separator used by `create_run_id` and for step ids. -/
def idSep : List Char := ['_', '_']

/-- `create_run_id` (recording.py lines 47-50): join the components with
`__`, transliterate to a filesystem-safe name, and truncate to 210
characters. -/
def create_run_id (p : RunIdParts) : List Char :=
  (string_to_file_name (p.timestamp ++ idSep ++ p.user ++ idSep ++ p.cwdBase ++ idSep ++ p.uuid)).take 210

/-- Every character produced by the transliteration is in the safe set. -/
theorem string_to_file_name_safe (s : List Char) :
    (string_to_file_name s).all isFileSafeChar = true := by
  induction s with
  | nil => rfl
  | cons c rest ih =>
    simp only [string_to_file_name, List.map_cons, List.all_cons] at ih ⊢
    by_cases h : isFileSafeChar c = true
    · simp [h, ih]
    · rw [if_neg h]
      simp only [List.all_cons, ih, Bool.and_true]
      decide

/-- C4: for every combination of timestamp, user, working-directory and
UUID components, `create_run_id` returns at most 210 characters, all of
them filesystem-safe. -/
theorem create_run_id_bounded_and_safe (p : RunIdParts) :
    (create_run_id p).length ≤ 210 ∧ (create_run_id p).all isFileSafeChar = true := by
  constructor
  · simp only [create_run_id, List.length_take]
    exact Nat.min_le_left _ _
  · have h := string_to_file_name_safe
      (p.timestamp ++ idSep ++ p.user ++ idSep ++ p.cwdBase ++ idSep ++ p.uuid)
    simp only [create_run_id]
    exact List.all_eq_true.mpr fun c hc =>
      List.all_eq_true.mp h c (List.mem_of_mem_take hc)

/-- The result value returned by the wrapped command, as seen by the
recording layer after unpacking: Python None (also the placeholder when the
command raised), some non-mapping value, or a mapping; for a mapping, the
model carries the value stored under the reserved `__metadata__` key when
that key is present. -/
inductive CmdResult where
  | noneV : CmdResult
  | nonMapping : String → CmdResult
  | mapping : Option (List (String × String)) → CmdResult
deriving DecidableEq, Repr

/-- Is the command result a `collections.Mapping` instance? -/
def CmdResult.isMapping : CmdResult → Bool
  | .mapping _ => true
  | _ => false

/-- Lookup in a Python dict built from a pair sequence: a later pair with
the same key overrides an earlier one, as in `dict(pairs)` and
`dict.update`. -/
def pyLookup (prs : List (String × String)) (k : String) : Option String :=
  match prs with
  | [] => none
  | (k0, v0) :: rest =>
    match pyLookup rest k with
    | some v => some v
    | none => if k0 = k then some v0 else none

/-- Looking up in the concatenation of two pair sequences prefers the second
sequence, falling back to the first: the semantics of `d1.update(d2)`. -/
theorem pyLookup_append (a b : List (String × String)) (k : String) :
    pyLookup (a ++ b) k =
      (match pyLookup b k with
        | some v => some v
        | none => pyLookup a k) := by
  induction a with
  | nil =>
    cases h : pyLookup b k <;> simp [pyLookup, h]
  | cons p rest ih =>
    obtain ⟨k0, v0⟩ := p
    cases h : pyLookup b k <;>
      simp_all [pyLookup, h]

/-- `gather_user_metadata` (recording.py lines 171-181).  `envMd` is the
dict collected from environment variables under the reserved
`VIRAL_NGS_METADATA_VALUE_` prefix, with the prefix already stripped from
the keys; `metadataArg` is the value of the per-invocation `--metadata`
option popped from the args dict (`none` when the flag was not given).
The environment dict is updated with the command-line pairs, and metadata
returned by the command under the reserved key is extracted into a second,
separate mapping only when the command result is a Mapping. -/
def gather_user_metadata (envMd : List (String × String))
    (metadataArg : Option (List (String × String))) (cmdResult : CmdResult) :
    List (String × String) × List (String × String) :=
  let metadataFromCmdLine := envMd ++ (match metadataArg with
    | some prs => prs
    | none => [])
  let metadataFromCmdReturn := match cmdResult with
    | .mapping md => match md with
      | some m => m
      | none => []
    | _ => []
  (metadataFromCmdLine, metadataFromCmdReturn)

/-- C10: a user-metadata key supplied both through the reserved environment
prefix and through the `--metadata` command-line flag resolves to the
command-line value in the recorded command-line metadata mapping, and the
command-returned metadata lives in the separate second mapping, which is
empty whenever the command result is not a mapping. -/
theorem cmd_line_metadata_overrides_env (envMd clMd : List (String × String))
    (res : CmdResult) (k ve vc : String)
    (henv : pyLookup envMd k = some ve) (hcl : pyLookup clMd k = some vc) :
    pyLookup (gather_user_metadata envMd (some clMd) res).1 k = some vc ∧
      (res.isMapping = false → (gather_user_metadata envMd (some clMd) res).2 = []) := by
  constructor
  · simp only [gather_user_metadata]
    rw [pyLookup_append, hcl]
  · intro hres
    cases res with
    | noneV => rfl
    | nonMapping s => rfl
    | mapping md => simp [CmdResult.isMapping] at hres

/-- Concrete check of the metadata-override theorem: key `sample` is set to
`env` by the environment and to `cli` on the command line; the recorded
value is `cli`, and a non-mapping command result contributes no returned
metadata. -/
theorem cmd_line_metadata_overrides_env_witness :
    pyLookup (gather_user_metadata [("sample", "env")] (some [("sample", "cli")]) (CmdResult.nonMapping "ok")).1 "sample" = some "cli" ∧
      ((CmdResult.nonMapping "ok").isMapping = false → (gather_user_metadata [("sample", "env")] (some [("sample", "cli")]) (CmdResult.nonMapping "ok")).2 = []) :=
  cmd_line_metadata_overrides_env [("sample", "env")] [("sample", "cli")]
    (CmdResult.nonMapping "ok") "sample" "env" "cli" (by decide) (by decide)

/-- Python `str.strip()`: drop whitespace from both ends. -/
def pyStrip (s : List Char) : List Char :=
  ((s.dropWhile Char.isWhitespace).reverse.dropWhile Char.isWhitespace).reverse

/-- Python `str.split()[1]`: split on whitespace runs and take the second
field, `none` when there is no second field (an IndexError in Python). -/
def pySplitSecond (s : List Char) : Option (List Char) :=
  let afterFirst :=
    ((s.dropWhile Char.isWhitespace).dropWhile (fun c => !c.isWhitespace)).dropWhile
      Char.isWhitespace
  if afterFirst.isEmpty then none
  else some (afterFirst.takeWhile (fun c => !c.isWhitespace))

/-- The characters of the `ref:` marker that a symbolic-ref HEAD line starts
with. -/
def refMarker : List Char := ['r', 'e', 'f', ':']

/-- The repository state as observed by `tag_code_version`: whether
`.git/HEAD` exists and what reading it yields, what reading the file named
by the HEAD ref yields, whether the detailed-environment toggle is set, and
what `save_dirty_repo` does when invoked (raise, return a stash hash, or
leave the hash unchanged). `Except Unit` models an operation that may raise. -/
structure GitState where
  headFile : Option (Except Unit (List Char))
  refFile : Except Unit (List Char)
  detailedEnv : Bool
  saveDirty : Except Unit (Option (List Char))
deriving Repr

/-- The body of `tag_code_version` (recording.py lines 78-90) run inside the
`errors_as_warnings` scope, threading the `code_hash` variable explicitly:
the result is the value of `code_hash` when the scope is left, paired with
`some ()` when the scope was left because an operation raised.  A raise
after `code_hash` was assigned keeps the assigned value, as Python leaves
completed assignments in place when a `with` body raises. -/
def tag_code_version_body (g : GitState) : List Char × Option Unit :=
  let afterHead : List Char → List Char × Option Unit := fun ch =>
    if g.detailedEnv then
      match g.saveDirty with
      | .error e => (ch, some e)
      | .ok none => (ch, none)
      | .ok (some stash) => (stash, none)
    else (ch, none)
  match g.headFile with
  | none => afterHead []
  | some (.error e) => ([], some e)
  | some (.ok content) =>
    let headBranch := pyStrip content
    if refMarker.isPrefixOf headBranch then
      match pySplitSecond headBranch with
      | none => ([], some ())
      | some _ =>
        match g.refFile with
        | .error e => ([], some e)
        | .ok refContent => afterHead (pyStrip refContent)
    else afterHead []

/-- `tag_code_version` (recording.py lines 71-90): the body runs under
`errors_as_warnings`, which (modelled from the spec) logs any raise as a
warning and discards it, so the function always returns the `code_hash`
accumulated up to the point of failure. -/
def tag_code_version (g : GitState) : List Char :=
  (tag_code_version_body g).1

/-- A repository state on which `tag_code_version` hits an error yet does
not return the empty string: HEAD names a ref whose file reads as
`abc123`, the detailed-environment toggle is set, and `save_dirty_repo`
raises (as it does, for example, through the undefined name `tagb` on
recording.py line 68 when a stash is created and a push target is given). -/
def dirtySaveFails : GitState :=
  { headFile := some (Except.ok "ref: refs/heads/master".toList)
    refFile := Except.ok "abc123".toList
    detailedEnv := true
    saveDirty := Except.error () }

/-- C6 counterexample: on `dirtySaveFails` an error occurs while obtaining
the code identifier, yet `tag_code_version` returns `abc123`, not the empty
string, refuting the claim that any error yields an empty code identifier. -/
theorem tag_code_version_error_nonempty_counterexample :
    (tag_code_version_body dirtySaveFails).2 = some () ∧
      tag_code_version dirtySaveFails = "abc123".toList := by
  constructor <;> rfl

/-- C6 amended: `tag_code_version` never propagates an exception (it always
returns the accumulated hash), and when the detailed-environment toggle is
off, any error while obtaining the code identifier yields the empty string. -/
theorem tag_code_version_error_gives_empty (g : GitState)
    (hd : g.detailedEnv = false) (he : (tag_code_version_body g).2.isSome = true) :
    tag_code_version g = (tag_code_version_body g).1 ∧ tag_code_version g = [] := by
  refine ⟨rfl, ?_⟩
  cases hh : g.headFile with
  | none => simp [tag_code_version, tag_code_version_body, hh, hd] at he ⊢
  | some r =>
    cases r with
    | error e => simp [tag_code_version, tag_code_version_body, hh]
    | ok content =>
      simp only [tag_code_version, tag_code_version_body, hh, hd] at he ⊢
      by_cases hs : refMarker.isPrefixOf (pyStrip content) = true
      · simp only [hs, if_true] at he ⊢
        cases hsp : pySplitSecond (pyStrip content) with
        | none => simp [hsp]
        | some ref =>
          cases hr : g.refFile with
          | error e => simp [hsp, hr]
          | ok refContent => simp [hsp, hr] at he
      · simp [hs] at he

/-- Concrete check of the amended C6 theorem: with the detailed-environment
toggle off and a raising HEAD read, the returned code identifier is empty. -/
theorem tag_code_version_error_gives_empty_witness :
    tag_code_version
        { headFile := some (Except.error ())
          refFile := Except.ok "abc123".toList
          detailedEnv := false
          saveDirty := Except.ok none } = [] :=
  (tag_code_version_error_gives_empty
    { headFile := some (Except.error ())
      refFile := Except.ok "abc123".toList
      detailedEnv := false
      saveDirty := Except.ok none } rfl rfl).2

/-- The constant `VIRAL_NGS_METADATA_FORMAT` (recording.py line 34). -/
def VIRAL_NGS_METADATA_FORMAT : String := "1.0.0"

/-- The fatal exceptions that `unpack_outcome` (recording.py line 191)
re-raises immediately instead of capturing. -/
inductive FatalExc where
  | keyboardInterrupt
  | systemExit
deriving DecidableEq, Repr

/-- The outcome of the wrapped command as delivered by the plugin machinery:
a returned result, a regular exception carrying its traceback text, or one
of the fatal exceptions. -/
inductive Outcome where
  | ok : CmdResult → Outcome
  | exc : String → Outcome
  | fatal : FatalExc → Outcome
deriving DecidableEq, Repr

/-- Is the outcome a KeyboardInterrupt or SystemExit? -/
def Outcome.isFatal : Outcome → Bool
  | .fatal _ => true
  | _ => false

/-- The step record assembled at recording.py lines 218 and 254-262:
the self-describing marker and format version from line 218, and the
per-step payload from lines 254-262.  `args` is the args dict copied at
line 216, before `replace_file_args` runs, so its values still contain
FileArg wrappers; `version_info` and `run_env` payloads are gathered by
external collaborators and are not modelled field by field. -/
structure StepRecord where
  viral_ngs_metadata : Bool
  format : String
  step_id : List Char
  run_id : List Char
  cmd_module : String
  cmd_name : String
  exception : Option String
  enclosing_steps : List (List Char)
  metadata_from_cmd_line : List (String × String)
  metadata_from_cmd_return : List (String × String)
  args : Args

/-- The process state an interception runs in: whether the metadata store
reports tracking enabled, the inherited run-id environment channel, the
enclosing-steps sequence read at entry from the steps-running channel, the
components available for building a fresh run id, the command identity and
arguments, the reserved-prefix environment metadata and `--metadata` flag
value, and whether the externally-performed gathering and store operations
succeed (`false` models those collaborators raising). -/
structure World where
  tracking_enabled : Bool
  env_run_id : Option (List Char)
  enclosing_steps : List (List Char)
  run_id_parts : RunIdParts
  cmd_module : String
  cmd_name : String
  env_md : List (String × String)
  metadata_arg : Option (List (String × String))
  args : Args
  gather_ok : Bool
  store_ok : Bool

/-- Modelled from the spec: `errors_as_warnings`
(module `util._metadata.md_utils`, not under `src/`) catches any exception
raised by its body, logs it as a warning, and discards it; the scope then
falls through with `dflt` standing for whatever the body did not produce. -/
def errors_as_warnings {α : Type} (body : Except String α) (dflt : α) : α :=
  match body with
  | .ok a => a
  | .error _ => dflt

/-- The recording body guarded by `errors_as_warnings` at recording.py
lines 243-263: when tracking is enabled and the enclosing-steps sequence
read at entry was empty, gather user metadata and the externally collected
version/environment/run info (which may raise, modelled by `gather_ok`),
assemble the step record, and store it (which may raise, modelled by
`store_ok`); otherwise do nothing. -/
def recording_block (w : World) (runId stepId : List Char)
    (cmdResult : CmdResult) (excStr : Option String) :
    Except String (Option StepRecord) :=
  if w.tracking_enabled && w.enclosing_steps.isEmpty then
    if w.gather_ok then
      let md := gather_user_metadata w.env_md w.metadata_arg cmdResult
      let record : StepRecord :=
        { viral_ngs_metadata := true
          format := VIRAL_NGS_METADATA_FORMAT
          step_id := stepId
          run_id := runId
          cmd_module := w.cmd_module
          cmd_name := w.cmd_name
          exception := excStr
          enclosing_steps := w.enclosing_steps
          metadata_from_cmd_line := md.1
          metadata_from_cmd_return := md.2
          args := w.args }
      if w.store_ok then Except.ok (some record)
      else Except.error "store_step_record raised"
    else Except.error "gathering version or environment info raised"
  else Except.ok none

/-- `unpack_outcome` (recording.py lines 183-200) as a combinator around
the body nested inside its scope: a KeyboardInterrupt or SystemExit is
re-raised before the body ever runs; a regular exception is captured as
`(None, traceback text)` for the body and re-raised when the scope is left;
a returned result is handed to the body and returned unchanged. -/
def unpack_outcome (o : Outcome)
    (body : CmdResult → Option String → Option StepRecord) :
    Outcome × Option StepRecord :=
  match o with
  | .fatal f => (.fatal f, none)
  | .ok r => (.ok r, body r none)
  | .exc e => (.exc e, body CmdResult.noneV (some e))

/-- What one interception delivers: the outcome seen by the caller of the
wrapped command, and the step record persisted to the metadata store
(`none` when nothing was persisted). -/
structure RunResult where
  final : Outcome
  stored : Option StepRecord

/-- `cmd_call_cmd` (recording.py lines 202-263): derive the run id from the
inherited environment channel or afresh, build the step id, and wrap the
command execution in `unpack_outcome` with the `errors_as_warnings`-guarded
recording block inside.  The wrapped command itself is not modelled: its
outcome is the input `outcome`. -/
def cmd_call_cmd (w : World) (outcome : Outcome) : RunResult :=
  let runId := match w.env_run_id with
    | some r => r
    | none => create_run_id w.run_id_parts
  let stepId := create_run_id w.run_id_parts ++ idSep ++ w.cmd_module.toList
    ++ idSep ++ w.cmd_name.toList
  let fs := unpack_outcome outcome (fun res excStr =>
    errors_as_warnings (recording_block w runId stepId res excStr) none)
  { final := fs.1, stored := fs.2 }

/-- A concrete process state used to instantiate the interception theorems:
tracking enabled, no inherited run id, outermost (empty enclosing steps),
and all external collaborators succeeding. -/
def exampleWorld : World :=
  { tracking_enabled := true
    env_run_id := none
    enclosing_steps := []
    run_id_parts :=
      { timestamp := "20180704120000".toList
        user := "alice".toList
        cwdBase := "viral-ngs".toList
        uuid := "123e4567-e89b-12d3-a456-426614174000".toList }
    cmd_module := "assembly"
    cmd_name := "assemble_trinity"
    env_md := [("sample", "env")]
    metadata_arg := some [("sample", "cli")]
    args := [("in_bam", Val.file { val := "a.bam", mode := FileMode.IN, fnames := ["a.bam"] })]
    gather_ok := true
    store_ok := true }

/-- C2: the wrapped command outcome delivered to the caller is exactly the
outcome the command produced, for every process state — in particular for
states where gathering or persisting raises, so recording failure is
swallowed and never replaces the command result or exception. -/
theorem outcome_preserved_by_recording (w : World) (o : Outcome) :
    (cmd_call_cmd w o).final = o := by
  cases o <;> rfl

/-- C1: when the outcome is not a fatal exception and the external
gathering and store operations succeed, a step record is persisted exactly
when metadata tracking is enabled and the enclosing-steps sequence read at
entry was empty; in particular a nested step or a tracking-disabled step is
never persisted. -/
theorem persisted_iff_tracking_and_outermost (w : World) (o : Outcome)
    (hf : o.isFatal = false) (hg : w.gather_ok = true) (hs : w.store_ok = true) :
    (cmd_call_cmd w o).stored.isSome = (w.tracking_enabled && w.enclosing_steps.isEmpty) := by
  cases o with
  | fatal f => simp [Outcome.isFatal] at hf
  | ok r =>
    simp only [cmd_call_cmd, unpack_outcome, recording_block, hg, hs, if_true]
    by_cases hc : (w.tracking_enabled && w.enclosing_steps.isEmpty) = true
    · simp [hc, errors_as_warnings]
    · rw [Bool.not_eq_true] at hc
      simp [hc, errors_as_warnings]
  | exc e =>
    simp only [cmd_call_cmd, unpack_outcome, recording_block, hg, hs, if_true]
    by_cases hc : (w.tracking_enabled && w.enclosing_steps.isEmpty) = true
    · simp [hc, errors_as_warnings]
    · rw [Bool.not_eq_true] at hc
      simp [hc, errors_as_warnings]

/-- Concrete check of the persistence-gating theorem: on `exampleWorld`
(tracking on, outermost) with a successful command, a record is persisted. -/
theorem persisted_iff_tracking_and_outermost_witness :
    (cmd_call_cmd exampleWorld (Outcome.ok CmdResult.noneV)).stored.isSome =
      (exampleWorld.tracking_enabled && exampleWorld.enclosing_steps.isEmpty) :=
  persisted_iff_tracking_and_outermost exampleWorld (Outcome.ok CmdResult.noneV) rfl rfl rfl

/-- C9: a KeyboardInterrupt or SystemExit outcome is re-raised unchanged
and no step record is persisted, in every process state — even with
tracking enabled and an empty enclosing-steps sequence. -/
theorem fatal_outcome_reraised_without_record (w : World) (f : FatalExc) :
    (cmd_call_cmd w (Outcome.fatal f)).stored = none ∧
      (cmd_call_cmd w (Outcome.fatal f)).final = Outcome.fatal f :=
  ⟨rfl, rfl⟩

/-- C7: every persisted step record carries the run id read from the
inherited environment channel when that channel is set, and a run id
freshly created from the begin-time components otherwise. -/
theorem run_id_inherited_or_fresh (w : World) (o : Outcome) (record : StepRecord)
    (h : (cmd_call_cmd w o).stored = some record) :
    record.run_id = (match w.env_run_id with
      | some r => r
      | none => create_run_id w.run_id_parts) := by
  cases o with
  | fatal f => exact absurd h (by simp [cmd_call_cmd, unpack_outcome])
  | ok r =>
    simp only [cmd_call_cmd, unpack_outcome, recording_block, errors_as_warnings] at h
    by_cases hc : (w.tracking_enabled && w.enclosing_steps.isEmpty) = true
    · simp only [hc, if_true] at h
      by_cases hg : w.gather_ok = true
      · simp only [hg, if_true] at h
        by_cases hs : w.store_ok = true
        · simp only [hs, if_true] at h
          cases h
          rfl
        · rw [Bool.not_eq_true] at hs
          simp [hs] at h
      · rw [Bool.not_eq_true] at hg
        simp [hg] at h
    · rw [Bool.not_eq_true] at hc
      simp [hc] at h
  | exc e =>
    simp only [cmd_call_cmd, unpack_outcome, recording_block, errors_as_warnings] at h
    by_cases hc : (w.tracking_enabled && w.enclosing_steps.isEmpty) = true
    · simp only [hc, if_true] at h
      by_cases hg : w.gather_ok = true
      · simp only [hg, if_true] at h
        by_cases hs : w.store_ok = true
        · simp only [hs, if_true] at h
          cases h
          rfl
        · rw [Bool.not_eq_true] at hs
          simp [hs] at h
      · rw [Bool.not_eq_true] at hg
        simp [hg] at h
    · rw [Bool.not_eq_true] at hc
      simp [hc] at h

/-- Concrete check of the run-id theorem: `exampleWorld` has no inherited
run id, so the persisted record's run id is the freshly created one. -/
theorem run_id_inherited_or_fresh_witness :
    ∃ record : StepRecord,
      (cmd_call_cmd exampleWorld (Outcome.ok CmdResult.noneV)).stored = some record ∧
        record.run_id = create_run_id exampleWorld.run_id_parts :=
  ⟨_, rfl, run_id_inherited_or_fresh exampleWorld (Outcome.ok CmdResult.noneV) _ rfl⟩

/-- C8: every persisted step record carries the self-describing marker
field set to true and the format-version string, which is `1.0.0`,
regardless of command, arguments, or outcome. -/
theorem record_marker_and_format (w : World) (o : Outcome) (record : StepRecord)
    (h : (cmd_call_cmd w o).stored = some record) :
    record.viral_ngs_metadata = true ∧ record.format = VIRAL_NGS_METADATA_FORMAT ∧
      VIRAL_NGS_METADATA_FORMAT = "1.0.0" := by
  refine ⟨?_, ?_, rfl⟩ <;>
  · cases o with
    | fatal f => exact absurd h (by simp [cmd_call_cmd, unpack_outcome])
    | ok r =>
      simp only [cmd_call_cmd, unpack_outcome, recording_block, errors_as_warnings] at h
      by_cases hc : (w.tracking_enabled && w.enclosing_steps.isEmpty) = true
      · simp only [hc, if_true] at h
        by_cases hg : w.gather_ok = true
        · simp only [hg, if_true] at h
          by_cases hs : w.store_ok = true
          · simp only [hs, if_true] at h
            cases h
            rfl
          · rw [Bool.not_eq_true] at hs
            simp [hs] at h
        · rw [Bool.not_eq_true] at hg
          simp [hg] at h
      · rw [Bool.not_eq_true] at hc
        simp [hc] at h
    | exc e =>
      simp only [cmd_call_cmd, unpack_outcome, recording_block, errors_as_warnings] at h
      by_cases hc : (w.tracking_enabled && w.enclosing_steps.isEmpty) = true
      · simp only [hc, if_true] at h
        by_cases hg : w.gather_ok = true
        · simp only [hg, if_true] at h
          by_cases hs : w.store_ok = true
          · simp only [hs, if_true] at h
            cases h
            rfl
          · rw [Bool.not_eq_true] at hs
            simp [hs] at h
        · rw [Bool.not_eq_true] at hg
          simp [hg] at h
      · rw [Bool.not_eq_true] at hc
        simp [hc] at h

/-- Concrete check of the marker-and-format theorem on `exampleWorld` with
a command that raised: the persisted record still carries marker and
version. -/
theorem record_marker_and_format_witness :
    ∃ record : StepRecord,
      (cmd_call_cmd exampleWorld (Outcome.exc "Traceback: boom")).stored = some record ∧
        (record.viral_ngs_metadata = true ∧ record.format = VIRAL_NGS_METADATA_FORMAT ∧
          VIRAL_NGS_METADATA_FORMAT = "1.0.0") :=
  ⟨_, rfl, record_marker_and_format exampleWorld (Outcome.exc "Traceback: boom") _ rfl⟩

/-- The per-file information gathered at serialization time: the path, the
content digest and stat data when the file was hashed, and whether the file
was found. -/
structure FileInfo where
  fname : String
  hash : Option String
  size : Option Nat
  mtime : Option Nat
  exist : Bool
deriving DecidableEq, Repr

/-- The observable file system at hashing time: for each path present, its
content digest, size, and modification time. -/
def Disk : Type := List (String × (String × Nat × Nat))

/-- Look a path up on the disk. -/
def diskLookup (d : Disk) (p : String) : Option (String × Nat × Nat) :=
  match d with
  | [] => none
  | (q, info) :: rest => if q = p then some info else diskLookup rest p

/-- Modelled from the spec: `FileArg.gather_file_info`
(module `util._metadata.file_arg`, not under `src/`): for each resolved
path, if the direction is IN, or the direction is OUT and `out_files_exist`
is true, hash and stat the path, recording a missing path as
`exist = false` without raising; otherwise mark the path absent without
consulting the disk.  The merging of additional output paths announced via
the command result is outside this model. -/
def FileArg.gather_file_info (d : Disk) (f : FileArg) (outFilesExist : Bool) :
    List FileInfo :=
  f.fnames.map (fun p =>
    if f.mode == FileMode.IN || outFilesExist then
      match diskLookup d p with
      | some (h, sz, mt) =>
        { fname := p, hash := some h, size := some sz, mtime := some mt, exist := true }
      | none => { fname := p, hash := none, size := none, mtime := none, exist := false }
    else { fname := p, hash := none, size := none, mtime := none, exist := false })

/-- A serialized argument value, as written to the metadata store: a plain
string, the file-info representation of a FileArg, or a list. -/
inductive SVal where
  | s : String → SVal
  | infos : List FileInfo → SVal
  | lst : List SVal → SVal

mutual

/-- The serializer `write_obj` (recording.py lines 148-154) as applied over
a value at store time: a FileArg becomes its gathered file info, ordered
containers are serialized element-wise, and anything else becomes its
string representation. -/
def serializeVal (d : Disk) (outFilesExist : Bool) : Val → SVal
  | .str s => .s s
  | .file f => .infos (f.gather_file_info d outFilesExist)
  | .list vs => .lst (serializeValList d outFilesExist vs)
  | .tuple vs => .lst (serializeValList d outFilesExist vs)

/-- List worker for `serializeVal`. -/
def serializeValList (d : Disk) (outFilesExist : Bool) : List Val → List SVal
  | [] => []
  | v :: vs => serializeVal d outFilesExist v :: serializeValList d outFilesExist vs

end

/-- Python truthiness negation of the captured exception text used at
recording.py line 152: `not None` and `not` of the empty string are true. -/
def py_not_str (e : Option String) : Bool :=
  match e with
  | none => true
  | some s => s.data.isEmpty

/-- `record_step_to_db` (recording.py lines 142-156): store the step record,
serializing each argument value with `write_obj`, where `out_files_exist`
is the truthiness negation of the captured exception text of the record's
run info. -/
def record_step_to_db (d : Disk) (record : StepRecord) : List (String × SVal) :=
  record.args.map (fun p => (p.1, serializeVal d (py_not_str record.exception) p.2))

/-- C3: serialization replaces every FileArg by file info gathered with
`out_files_exist` true exactly when no (necessarily non-empty) command
exception text was captured; IN-direction files are hashed and stat'ed the
same way whatever the flag, while OUT-direction files under a captured
exception are marked not existing with no digest, whatever the disk holds. -/
theorem file_info_exception_gating (d : Disk) (record : StepRecord)
    (hne : ∀ s, record.exception = some s → s.data.isEmpty = false) :
    record_step_to_db d record =
        record.args.map (fun p => (p.1, serializeVal d record.exception.isNone p.2)) ∧
      (∀ b : Bool, ∀ f : FileArg,
        serializeVal d b (Val.file f) = SVal.infos (f.gather_file_info d b)) ∧
      (∀ f : FileArg, f.mode = FileMode.IN →
        ∀ b : Bool, f.gather_file_info d b = f.gather_file_info d true) ∧
      (∀ f : FileArg, f.mode = FileMode.OUT →
        (f.gather_file_info d false).all (fun i => !i.exist && i.hash.isNone) = true) := by
  have hflag : py_not_str record.exception = record.exception.isNone := by
    cases he : record.exception with
    | none => rfl
    | some s =>
      simp only [py_not_str, Option.isNone_some]
      exact hne s he
  refine ⟨?_, fun b f => rfl, ?_, ?_⟩
  · simp only [record_step_to_db, hflag]
  · intro f hIn b
    simp only [FileArg.gather_file_info, hIn]
    rfl
  · intro f hOut
    rw [FileArg.gather_file_info]
    refine List.all_eq_true.mpr ?_
    intro i hi
    rw [List.mem_map] at hi
    obtain ⟨p, _, hEq⟩ := hi
    subst hEq
    simp [hOut]

/-- A concrete step record with no captured exception, whose single
argument is an IN file, used to instantiate the serialization theorem. -/
def exampleRecord : StepRecord :=
  { viral_ngs_metadata := true
    format := VIRAL_NGS_METADATA_FORMAT
    step_id := "180704120000__alice__viral-ngs__u0__assembly__assemble_trinity".toList
    run_id := "180704120000__alice__viral-ngs__u0".toList
    cmd_module := "assembly"
    cmd_name := "assemble_trinity"
    exception := none
    enclosing_steps := []
    metadata_from_cmd_line := [("sample", "cli")]
    metadata_from_cmd_return := []
    args := [("in_bam", Val.file { val := "a.bam", mode := FileMode.IN, fnames := ["a.bam"] })] }

/-- Concrete check of the serialization theorem: a record with no captured
exception, whose single argument is an IN file present on disk. -/
theorem file_info_exception_gating_witness :
    (record_step_to_db [("a.bam", ("digest0", 100, 7))] exampleRecord =
        exampleRecord.args.map (fun p =>
          (p.1, serializeVal [("a.bam", ("digest0", 100, 7))] exampleRecord.exception.isNone p.2))) ∧
      (∀ b : Bool, ∀ f : FileArg,
        serializeVal [("a.bam", ("digest0", 100, 7))] b (Val.file f) =
          SVal.infos (f.gather_file_info [("a.bam", ("digest0", 100, 7))] b)) ∧
      (∀ f : FileArg, f.mode = FileMode.IN →
        ∀ b : Bool,
          f.gather_file_info [("a.bam", ("digest0", 100, 7))] b =
            f.gather_file_info [("a.bam", ("digest0", 100, 7))] true) ∧
      (∀ f : FileArg, f.mode = FileMode.OUT →
        (f.gather_file_info [("a.bam", ("digest0", 100, 7))] false).all
            (fun i => !i.exist && i.hash.isNone) = true) :=
  file_info_exception_gating [("a.bam", ("digest0", 100, 7))] exampleRecord
    (fun s hs => nomatch hs)

end ViralNGS
